import Mathlib

/-!
Shallow embedding of `src/cortex/dataset/dataset.py` (the `Dataset` container of
pycortex) and proofs about its behaviour.

Modelling conventions:
* Python dicts that map names to values become association lists
  `List (String × α)` with insertion-order semantics (`dictSet` models
  `d[k] = v`, `dictUpdate` models `d.update(other)`).
* Fallible code returns `Except PyErr α`; the `PyErr` constructors mirror the
  Python exception classes raised or caught by the source.
* The h5py file is the `H5` structure: the reserved top-level groups `views`
  and `subjects` are explicit fields (`none` models an absent group, so that
  subscripting it raises `KeyError` as in h5py), every other top-level node
  lives in `others`.
* numpy float arrays are modelled over `ℚ`; numpy length-1 broadcasting is not
  modelled (shape mismatch is a `ValueError`).
* Module-level name resolution matters in this file (the source refers to
  names it never imports), so `moduleGlobals` lists the names actually bound
  at module level; evaluating an unbound name is a `NameError`.
* The collaborators `Dataview`, `views.normalize` and `_from_hdf_data` are not
  under `src/`; they are modelled from the spec where marked.
-/

namespace Cortex

/-- Python exceptions that the source raises or catches. -/
inductive PyErr where
  | keyError (key : String)
  | typeError (msg : String)
  | valueError (msg : String)
  | nameError (missing : String)
  | attributeError (attr : String)
  | ioError (msg : String)
deriving DecidableEq, Repr

/-- The `_mask` attribute of a volume-typed data object: either a mask name
(string) or a custom inline mask (array data). -/
inductive MaskVal where
  | nameStr (s : String)
  | inlineArr (data : List Bool)
deriving DecidableEq, Repr

/-- An underlying raw data object as seen by `Dataset.save`: it exposes
`subject`, `xfmname` and `_mask`; `isVolume` records whether
`isinstance(data, Volume)` would hold. -/
structure BrainData where
  subject : String
  xfmname : String
  mask : MaskVal
  isVolume : Bool
deriving DecidableEq, Repr

/-- Modelled from the spec: the `Dataview` collaborator (defined in `views.py`
of the repository, not under `src/`) exposes a `priority` ordering key and
`uniques()`, the list of underlying unique raw-data objects. -/
structure Dataview where
  priority : Int
  uniq : List BrainData
deriving DecidableEq, Repr

/-- One surface mesh node `.../surfaces/<type>/<hemi>`: `pts` and `polys`. -/
structure SurfaceN where
  pts : List (ℚ × ℚ × ℚ)
  polys : List (Nat × Nat × Nat)
deriving DecidableEq, Repr

/-- One transform node `.../transforms/<xfmname>`: matrix, `shape` attribute
and the `masks` sub-group. -/
structure XfmNode where
  xfm : List (List ℚ)
  shape : List Nat
  masks : List (String × List Bool)
deriving DecidableEq, Repr

/-- One `subjects/<id>` sub-tree of the file. -/
structure SubjNode where
  rois : Option String
  surfaces : List (String × List (String × SurfaceN))
  transforms : List (String × XfmNode)
deriving DecidableEq, Repr

/-- A top-level data node of the file: either a node written by
`Dataview._write_hdf`, or a raw node (its field holds the decoded data object
when the metadata `_from_hdf_data` needs is present, `none` otherwise). -/
inductive HNode where
  | dv (d : Dataview)
  | raw (meta : Option Dataview)
deriving DecidableEq, Repr

/-- The hierarchical file. `viewsGroup`/`subjects` are the reserved top-level
groups (`none` = group absent, so `h5[name]` raises `KeyError`); `others`
holds all remaining top-level nodes. -/
structure H5 where
  viewsGroup : Option (List (String × HNode))
  subjects : Option (List (String × SubjNode))
  others : List (String × HNode)
deriving DecidableEq, Repr

/-- A freshly created (empty) h5py file. -/
def H5.empty : H5 := ⟨none, none, []⟩

/-- The names bound at module level of `src/cortex/dataset/dataset.py`: its
imports (`import tempfile`, `import warnings`, `import numpy as np`,
`import h5py`, `from ..database import db`, `from ..xfm import Transform`,
`from .braindata import _hdf_write`, `from .views import normalize as _vnorm`,
`from .views import Dataview`) and its own module-level definitions. Neither
`Volume` nor `_from_hdf_data` is among them. -/
def moduleGlobals : List String :=
  ["tempfile", "warnings", "np", "h5py", "db", "Transform", "_hdf_write",
   "_vnorm", "Dataview", "Dataset", "normalize",
   "_pack_subjs", "_pack_xfms", "_pack_masks"]

/-- Python dict assignment `d[k] = v` on an association list: overwrite in
place if the key exists, append otherwise. -/
def dictSet {α : Type} (l : List (String × α)) (k : String) (v : α) :
    List (String × α) :=
  match l with
  | [] => [(k, v)]
  | (k2, v2) :: rest => if k2 = k then (k, v) :: rest else (k2, v2) :: dictSet rest k v

/-- Python dict lookup `d[k]`. -/
def dictFind {α : Type} (l : List (String × α)) (k : String) : Option α :=
  match l with
  | [] => none
  | (k2, v) :: rest => if k2 = k then some v else dictFind rest k

/-- Python `d.update(other)`. -/
def dictUpdate {α : Type} (l other : List (String × α)) : List (String × α) :=
  other.foldl (fun acc p => dictSet acc p.1 p.2) l

/-- A Python value that can be handed to `Dataset.append` / `normalize`.
`dataset vs` is a `Dataset` whose `views` dict is `vs`; `tup` is a tuple of
view-construction arguments (carrying the view `views.normalize` would build
from it); `other` is any unsupported value, tagged with its type name. -/
inductive PyVal where
  | dataview (d : Dataview)
  | dataset (views : List (String × PyVal))
  | dict (items : List (String × PyVal))
  | pystr (s : String)
  | tup (t : Dataview)
  | other (tyName : String)

/-- Modelled from the spec: `Dataview._write_hdf(h5, name)` writes a
self-described sub-tree for the view under `views/<name>` (collaborator in
`views.py`, not under `src/`). -/
def Dataview.writeNode (d : Dataview) : HNode := .dv d

/-- Modelled from the spec: `Dataview.from_hdf(node)`, the collaborator's
hierarchical-load hook; it fails on a node it did not write. -/
def Dataview.from_hdf : HNode → Except PyErr Dataview
  | .dv d => .ok d
  | .raw _ => .error (.keyError "metadata")

/-- Modelled from the spec: `_from_hdf_data` (defined in `views.py` of the
repository, not under `src/`) interprets a legacy/foreign raw-data node,
raising `KeyError` when the expected metadata is missing. Note: the module
under `src/` never imports this name, so calling it is only possible when
`"_from_hdf_data" ∈ moduleGlobals`. -/
def _from_hdf_data : HNode → Except PyErr PyVal
  | .dv d => .ok (.dataview d)
  | .raw (some d) => .ok (.dataview d)
  | .raw none => .error (.keyError "metadata")

/-- Modelled from the spec: `views.normalize` (imported as `_vnorm`)
interprets a fixed-arity tuple as view-construction arguments and returns the
resulting `Dataview`. -/
def _vnorm (t : Dataview) : Except PyErr PyVal := .ok (.dataview t)

/-- The loop of `Dataset.from_file` that scans top-level nodes other than the
reserved names, accumulating into `ds.views`. Evaluating `_from_hdf_data`
first resolves that (unbound) module-level name; the `except KeyError` around
the call catches only `KeyError`. -/
def foreignScan : List (String × HNode) → List (String × PyVal) →
    Except PyErr (List (String × PyVal))
  | [], views => .ok views
  | (name, node) :: rest, views =>
    if name = "data" ∨ name = "subjects" ∨ name = "views" then
      foreignScan rest views
    else if moduleGlobals.contains "_from_hdf_data" then
      match _from_hdf_data node with
      | .ok v => foreignScan rest (dictSet views name v)
      | .error (.keyError _) => foreignScan rest views
      | .error e => .error e
    else
      .error (.nameError "_from_hdf_data")

/-- The loop of `Dataset.from_file` over `ds.h5['views'].items()`: each view is
loaded with `Dataview.from_hdf`; a bare `except` prints the traceback and
continues, so any failure just skips that view. -/
def loadViews : List (String × HNode) → List (String × PyVal) →
    List (String × PyVal)
  | [], views => views
  | (name, node) :: rest, views =>
    match Dataview.from_hdf node with
    | .ok d => loadViews rest (dictSet views name (.dataview d))
    | .error _ => loadViews rest views

/-- `Dataset.from_file(filename)` on an opened file `h5`. The second component
is the final value of the process-wide `db.auxfile` binding: the code sets
`db.auxfile = ds` before the scan and assigns `db.auxfile = None` on the
straight-line path only (there is no `try/finally`), so an escaping exception
leaves the binding set (`some ()`). Raw nodes under reserved names appear in
`h5.others` only if pathological; the reserved-name test of the source is kept. -/
def Dataset.from_file (h5 : H5) :
    Except PyErr (List (String × PyVal)) × Option Unit :=
  match foreignScan h5.others [] with
  | .error e => (.error e, some ())
  | .ok foreignViews =>
    match h5.viewsGroup with
    | none => (.error (.keyError "views"), some ())
    | some nodes => (.ok (loadViews nodes foreignViews), none)

/-- The filesystem seen by `h5py.File` when `normalize` receives a path:
a map from filename to file content; a missing file is created empty
(h5py append mode). -/
def FileSys : Type := List (String × H5)

mutual
/-- `normalize(data)`: returns Datasets and Dataviews unchanged, builds a
`Dataset(**data)` from a dict, loads `Dataset.from_file(data)` from a string,
delegates a tuple to `views.normalize`, and raises
`TypeError('Unknown input type')` on anything else. -/
def normalize (fs : FileSys) : PyVal → Except PyErr PyVal
  | .dataset vs => .ok (.dataset vs)
  | .dataview d => .ok (.dataview d)
  | .dict items => (Dataset.appendPairs fs [] items).map PyVal.dataset
  | .pystr s => ((Dataset.from_file ((dictFind fs s).getD H5.empty)).1).map PyVal.dataset
  | .tup t => _vnorm t
  | .other _ => .error (.typeError "Unknown input type")

/-- `Dataset.append(**kwargs)` acting on `self.views`: each value is
normalized; a `Dataview` is stored under the given name, a `Dataset` has all
its views merged in (`self.views.update(norm.views)`, the name is discarded),
anything else raises `ValueError`. `Dataset.__init__` is
`appendPairs fs [] kwargs` (see `Dataset.init`). -/
def Dataset.appendPairs (fs : FileSys) (views : List (String × PyVal)) :
    List (String × PyVal) → Except PyErr (List (String × PyVal))
  | [] => .ok views
  | (name, data) :: rest =>
    match normalize fs data with
    | .error e => .error e
    | .ok (.dataview d) => Dataset.appendPairs fs (dictSet views name (.dataview d)) rest
    | .ok (.dataset vs) => Dataset.appendPairs fs (dictUpdate views vs) rest
    | .ok _ => .error (.valueError ("Unknown input " ++ name))
end

/-- `Dataset.__init__(**kwargs)`: starts with empty `views` and appends. -/
def Dataset.init (fs : FileSys) (kwargs : List (String × PyVal)) :
    Except PyErr (List (String × PyVal)) :=
  Dataset.appendPairs fs [] kwargs

/-- The sort key of `Dataset.__iter__`: `lambda x: x[1].priority`. Entries of
`views` are always Dataviews; the default `0` is never reached there. -/
def viewPriority : PyVal → Int
  | .dataview d => d.priority
  | _ => 0

/-- Stable insertion used to model Python `sorted`: a new element goes after
all existing elements of smaller-or-equal key. -/
def insertByPriority (x : String × PyVal) :
    List (String × PyVal) → List (String × PyVal)
  | [] => [x]
  | y :: ys =>
    if viewPriority y.2 ≤ viewPriority x.2 then y :: insertByPriority x ys
    else x :: y :: ys

/-- `Dataset.__iter__`: yields the `views` items sorted by ascending view
priority (Python `sorted` is stable; so is this left fold of stable inserts). -/
def Dataset.iter (views : List (String × PyVal)) : List (String × PyVal) :=
  views.foldl (fun acc x => insertByPriority x acc) []

/-- Whether a value is a `Dataview` (`isinstance(v, Dataview)`). -/
def PyVal.isDV : PyVal → Bool
  | .dataview _ => true
  | _ => false

/-- Entries of a `views` dict are all Dataviews. -/
def allDV (views : List (String × PyVal)) : Bool :=
  views.all (fun p => p.2.isDV)

/-- `view.uniques()`: the unique raw-data objects under a view. -/
def PyVal.uniques : PyVal → List BrainData
  | .dataview d => d.uniq
  | _ => []

mutual
/-- A value constructible through the Python API: any `Dataset` it contains
has only Dataview entries in its `views` dict (which `Dataset.append`
guarantees for every dataset the module itself builds). -/
def PyVal.wf : PyVal → Bool
  | .dataset vs => allDV vs
  | .dict items => wfList items
  | _ => true

/-- All values of a name/value list are `PyVal.wf`. -/
def wfList : List (String × PyVal) → Bool
  | [] => true
  | p :: rest => p.2.wf && wfList rest
end

/-- Modelled from the spec: the anatomical-database collaborator `db` (the
`..database` module, not under `src/`), restricted to the accessors the pack
subsystem consumes: `get_overlay(subject).toxml()`, the surface names of
`get_paths(subject)['surfs']`, `get_surf`, `get_xfm(...,'coord')` (matrix and
target shape) and `get_mask`. -/
structure DBModel where
  overlayXml : String → String
  surfNames : String → List String
  surf : String → String → String → SurfaceN
  xfmOf : String → String → List (List ℚ) × List Nat
  maskOf : String → String → String → List Bool

/-- A degenerate database for concrete evaluation. -/
def DBModel.trivial : DBModel :=
  ⟨fun _ => "", fun _ => [], fun _ _ _ => ⟨[], []⟩, fun _ _ => ⟨[], []⟩,
   fun _ _ _ => []⟩

/-- Update-at-key on an association list, creating the entry from `dflt` when
absent (models h5py `require_group`/`require_dataset` path creation). -/
def updA {α : Type} (l : List (String × α)) (k : String) (dflt : α) (f : α → α) :
    List (String × α) :=
  match l with
  | [] => [(k, f dflt)]
  | (k2, v) :: rest => if k2 = k then (k2, f v) :: rest else (k2, v) :: updA rest k dflt f

/-- An empty `subjects/<id>` sub-tree. -/
def SubjNode.empty : SubjNode := ⟨none, [], []⟩

/-- An empty transform node. -/
def XfmNode.empty : XfmNode := ⟨[], [], []⟩

/-- `_pack_subjs(h5, subjects)`: for each subject, write the ROI overlay under
`/subjects/<s>/rois` and, for every surface name the database knows and both
hemispheres, the mesh under `/subjects/<s>/surfaces/<surf>/<hemi>`. -/
def _pack_subjs (dbm : DBModel) (h5 : H5) (subjects : List String) : H5 :=
  subjects.foldl (fun h5 subject =>
    let writeHemi := fun (sn : SubjNode) (surf hemi : String) =>
      let hs := fun (l : List (String × SurfaceN)) =>
        dictSet l hemi (dbm.surf subject surf hemi)
      { sn with surfaces := updA sn.surfaces surf [] hs }
    let writeSubj := fun (sn : SubjNode) =>
      let sn := { sn with rois := some (dbm.overlayXml subject) }
      (dbm.surfNames subject).foldl
        (fun sn surf => ["lh", "rh"].foldl (fun sn hemi => writeHemi sn surf hemi) sn) sn
    { h5 with subjects := some (updA (h5.subjects.getD []) subject SubjNode.empty writeSubj) }) h5

/-- `_pack_xfms(h5, xfms)`: write each coord transform matrix and its `shape`
attribute under `/subjects/<s>/transforms/<name>`. -/
def _pack_xfms (dbm : DBModel) (h5 : H5) (xfms : List (String × String)) : H5 :=
  xfms.foldl (fun h5 p =>
    let mat := (dbm.xfmOf p.1 p.2).1
    let shp := (dbm.xfmOf p.1 p.2).2
    let writeXfm := fun (xn : XfmNode) => { xn with xfm := mat, shape := shp }
    let writeSubj := fun (sn : SubjNode) =>
      { sn with transforms := updA sn.transforms p.2 XfmNode.empty writeXfm }
    { h5 with subjects := some (updA (h5.subjects.getD []) p.1 SubjNode.empty writeSubj) }) h5

/-- `_pack_masks(h5, masks)`: write each named mask under
`/subjects/<s>/transforms/<xfm>/masks/<name>`. -/
def _pack_masks (dbm : DBModel) (h5 : H5)
    (masks : List (String × String × String)) : H5 :=
  masks.foldl (fun h5 p =>
    let writeXfm := fun (xn : XfmNode) =>
      { xn with masks := dictSet xn.masks p.2.2 (dbm.maskOf p.1 p.2.1 p.2.2) }
    let writeSubj := fun (sn : SubjNode) =>
      { sn with transforms := updA sn.transforms p.2.1 XfmNode.empty writeXfm }
    { h5 with subjects := some (updA (h5.subjects.getD []) p.1 SubjNode.empty writeSubj) }) h5

/-- Python `set.add` on a list kept deduplicated (insertion order retained;
only membership and uniqueness matter to the claims). -/
def insDedup {α : Type} [DecidableEq α] (s : List α) (a : α) : List α :=
  if a ∈ s then s else s ++ [a]

/-- The three resource-key sets the pack branch of `Dataset.save` collects. -/
structure PackSets where
  subjs : List String
  xfms : List (String × String)
  masks : List (String × String × String)

/-- The body of the pack collection loop for one `data` object:
`subjs.add(data.subject)`, then `isinstance(data, Volume)` — which first has
to resolve the module-level name `Volume`; only volume-typed data contributes
an `(subject, xfmname)` pair, and only a string `_mask` contributes a mask
triple (custom inline masks are already packaged by the normal write path). -/
def collectData (acc : PackSets) (data : BrainData) : Except PyErr PackSets :=
  let acc := { acc with subjs := insDedup acc.subjs data.subject }
  if moduleGlobals.contains "Volume" then
    if data.isVolume then
      let acc := { acc with xfms := insDedup acc.xfms (data.subject, data.xfmname) }
      match data.mask with
      | .nameStr m =>
        .ok { acc with masks := insDedup acc.masks (data.subject, data.xfmname, m) }
      | .inlineArr _ => .ok acc
    else .ok acc
  else .error (.nameError "Volume")

/-- `for data in view.uniques(): ...` of the pack branch. -/
def collectDatas (acc : PackSets) : List BrainData → Except PyErr PackSets
  | [] => .ok acc
  | d :: ds =>
    match collectData acc d with
    | .ok acc2 => collectDatas acc2 ds
    | .error e => .error e

/-- `for view in self.views.values(): for data in view.uniques(): ...`. -/
def packCollect (acc : PackSets) :
    List (String × PyVal) → Except PyErr PackSets
  | [] => .ok acc
  | (_, v) :: rest =>
    match v with
    | .dataview d =>
      match collectDatas acc d.uniq with
      | .ok acc2 => packCollect acc2 rest
      | .error e => .error e
    | _ => .error (.attributeError "uniques")

/-- The save loop `for name, view in self.views.items():
view._write_hdf(self.h5, name=name)` — each view writes itself under
`views/<name>` (creating the `views` group on first write); calling the hook
on a non-Dataview entry would be an `AttributeError`. -/
def writeViews (h5 : H5) : List (String × PyVal) → Except PyErr H5
  | [] => .ok h5
  | (name, v) :: rest =>
    match v with
    | .dataview d =>
      let g := dictSet (h5.viewsGroup.getD []) name (Dataview.writeNode d)
      writeViews { h5 with viewsGroup := some g } rest
    | _ => .error (.attributeError "_write_hdf")

/-- `Dataset.save(filename, pack)`. `fileAtName` is the content found at
`filename` when one is given (`H5.empty` for a new file); with no filename the
dataset must already own a handle `selfh5`, else
`ValueError("Must provide filename for new datasets")`. After writing every
view, `pack=True` runs the collection loop and the three `_pack_*` passes;
`flush` is a no-op in the model. -/
def Dataset.save (dbm : DBModel) (views : List (String × PyVal))
    (selfh5 : Option H5) (fileAtName : Option H5) (pack : Bool) :
    Except PyErr H5 :=
  match (match fileAtName, selfh5 with
         | some h5, _ => Except.ok h5
         | none, some h5 => Except.ok h5
         | none, none =>
           Except.error (PyErr.valueError "Must provide filename for new datasets")) with
  | .error e => .error e
  | .ok h5 =>
    match writeViews h5 views with
    | .error e => .error e
    | .ok h5b =>
      if pack then
        match packCollect ⟨[], [], []⟩ views with
        | .error e => .error e
        | .ok sets =>
          .ok (_pack_masks dbm
                (_pack_xfms dbm (_pack_subjs dbm h5b sets.subjs) sets.xfms)
                sets.masks)
      else .ok h5b

/-- numpy max over the x column (raises `ValueError` on an empty array). -/
def listMax : List ℚ → Option ℚ
  | [] => none
  | [x] => some x
  | x :: xs =>
    match listMax xs with
    | some m => some (max x m)
    | none => some x

/-- numpy min over the x column. -/
def listMin : List ℚ → Option ℚ
  | [] => none
  | [x] => some x
  | x :: xs =>
    match listMin xs with
    | some m => some (min x m)
    | none => some x

/-- The nudge of `get_surf`: `pts[:,0] -= pts[:,0].max()` for the left
hemisphere, `pts[:,0] -= pts[:,0].min()` otherwise. -/
def nudgeSurf (hemi : String) (s : SurfaceN) : Except PyErr SurfaceN :=
  if hemi = "lh" then
    match listMax (s.pts.map (fun p => p.1)) with
    | none => .error (.valueError "zero-size array reduction")
    | some m => .ok ⟨s.pts.map (fun p => (p.1 - m, p.2.1, p.2.2)), s.polys⟩
  else
    match listMin (s.pts.map (fun p => p.1)) with
    | none => .error (.valueError "zero-size array reduction")
    | some m => .ok ⟨s.pts.map (fun p => (p.1 - m, p.2.1, p.2.2)), s.polys⟩

/-- The non-derived lookup of `get_surf`:
`self.h5['subjects'][subject]['surfaces'][type][hemi]`, with the
`except (KeyError, TypeError)` translation to
`IOError('Subject not found in package')` (`self.h5` may be `None`, whence the
`TypeError`), followed by the optional nudge (whose `ValueError` propagates). -/
def get_surf_base (h5o : Option H5) (subject ty hemi : String) (nudge : Bool) :
    Except PyErr SurfaceN :=
  match h5o with
  | none => .error (.ioError "Subject not found in package")
  | some h5 =>
    match h5.subjects with
    | none => .error (.ioError "Subject not found in package")
    | some subjTree =>
      match dictFind subjTree subject with
      | none => .error (.ioError "Subject not found in package")
      | some sn =>
        match dictFind sn.surfaces ty with
        | none => .error (.ioError "Subject not found in package")
        | some hemis =>
          match dictFind hemis hemi with
          | none => .error (.ioError "Subject not found in package")
          | some s => if nudge then nudgeSurf hemi s else .ok s

/-- The elementwise midpoint `(wpts + ppts) / 2` of one vertex. -/
def midPt (p q : ℚ × ℚ × ℚ) : ℚ × ℚ × ℚ :=
  ((p.1 + q.1) / 2, (p.2.1 + q.2.1) / 2, (p.2.2 + q.2.2) / 2)

/-- `get_surf` for a single hemisphere: the `fiducial` type averages the `wm`
and `pia` points (the recursive calls pass neither `nudge` nor `merge`, so the
base lookup runs un-nudged) and reuses the `wm` polygons; a numpy shape
mismatch in `wpts + ppts` is a `ValueError` that propagates past the
`except (KeyError, TypeError)`. -/
def get_surf_hemi (h5o : Option H5) (subject ty hemi : String) (nudge : Bool) :
    Except PyErr SurfaceN :=
  if ty = "fiducial" then
    match get_surf_base h5o subject "wm" hemi false with
    | .error e => .error e
    | .ok w =>
      match get_surf_base h5o subject "pia" hemi false with
      | .error e => .error e
      | .ok p =>
        if w.pts.length = p.pts.length then
          .ok ⟨List.zipWith midPt w.pts p.pts, w.polys⟩
        else .error (.valueError "operands could not be broadcast together")
  else get_surf_base h5o subject ty hemi nudge

/-- Result of `Dataset.get_surf`: a single `(pts, polys)` surface, or the
`(left, right)` pair returned by `hemi='both'` without `merge`. -/
inductive GSRes where
  | single (s : SurfaceN)
  | pair (lh rh : SurfaceN)
deriving DecidableEq, Repr

/-- `right[1] + len(left[0])`: offset every vertex index of a polygon. -/
def offsetPoly (n : Nat) (t : Nat × Nat × Nat) : Nat × Nat × Nat :=
  (t.1 + n, t.2.1 + n, t.2.2 + n)

/-- `Dataset.get_surf(subject, type, hemi, merge, nudge)`: `hemi='both'`
recurses on both hemispheres (passing `nudge` but not `merge`); with `merge`
the points are vstacked and the right-hemisphere polygon indices are offset by
`len(left[0])`, otherwise the pair is returned. -/
def Dataset.get_surf (h5o : Option H5) (subject ty hemi : String)
    (merge nudge : Bool) : Except PyErr GSRes :=
  if hemi = "both" then
    match get_surf_hemi h5o subject ty "lh" nudge with
    | .error e => .error e
    | .ok left =>
      match get_surf_hemi h5o subject ty "rh" nudge with
      | .error e => .error e
      | .ok right =>
        if merge then
          .ok (.single ⟨left.pts ++ right.pts,
                        left.polys ++ right.polys.map (offsetPoly left.pts.length)⟩)
        else .ok (.pair left right)
  else (get_surf_hemi h5o subject ty hemi nudge).map GSRes.single

/-- The file node a view's self-serialization produces (used to state what the
save loop writes). -/
def nodeOf : PyVal → HNode
  | .dataview d => .dv d
  | _ => .raw none

/-! ### Concrete data for witnesses and counterexamples -/

/-- A view with no underlying raw data. -/
def dv0 : Dataview := ⟨0, []⟩

/-- A volume-typed raw-data object: subject `S1`, transform `T1`, string mask
`M1`. -/
def bdS1 : BrainData := ⟨"S1", "T1", .nameStr "M1", true⟩

/-- Five distinct views all referencing `bdS1`. -/
def viewsS1 : List (String × PyVal) :=
  [("v1", .dataview ⟨1, [bdS1]⟩), ("v2", .dataview ⟨2, [bdS1]⟩),
   ("v3", .dataview ⟨3, [bdS1]⟩), ("v4", .dataview ⟨4, [bdS1]⟩),
   ("v5", .dataview ⟨5, [bdS1]⟩)]

/-- A file whose only irregularity is one foreign top-level node without
usable metadata. -/
def strayFile : H5 := ⟨some [], none, [("stray", .raw none)]⟩

/-- A file with a `subjects` group but no `views` group. -/
def noViewsFile : H5 := ⟨none, some [], []⟩

/-- A white-matter surface for the witness subject. -/
def surfW : SurfaceN := ⟨[(0, 0, 0), (2, 2, 2)], [(0, 1, 0)]⟩

/-- A pial surface for the witness subject. -/
def surfP : SurfaceN := ⟨[(2, 0, 0), (0, 4, 2)], [(0, 1, 1)]⟩

/-- A right-hemisphere surface for the witness subject. -/
def surfR : SurfaceN := ⟨[(5, 5, 5)], [(0, 0, 0)]⟩

/-- The witness subject: `wm` on both hemispheres, `pia` on the left. -/
def subjX : SubjNode :=
  ⟨none, [("wm", [("lh", surfW), ("rh", surfR)]), ("pia", [("lh", surfP)])], []⟩

/-- A packaged file containing the witness subject. -/
def h5X : H5 := ⟨none, some [("S", subjX)], []⟩

/-! ### Helper lemmas -/

theorem isDV_iff (v : PyVal) : v.isDV = true ↔ ∃ d, v = .dataview d := by
  cases v <;> simp [PyVal.isDV]

theorem allDV_iff (l : List (String × PyVal)) :
    allDV l = true ↔ ∀ p ∈ l, ∃ d, p.2 = PyVal.dataview d := by
  simp [allDV, List.all_eq_true, isDV_iff]

theorem dictSet_key_absent {α : Type} (l : List (String × α)) (k : String)
    (v : α) (h : k ∉ l.map Prod.fst) : dictSet l k v = l ++ [(k, v)] := by
  induction l with
  | nil => rfl
  | cons p rest ih =>
    simp only [List.map_cons, List.mem_cons] at h
    push_neg at h
    simp [dictSet, h.1, ih h.2, Ne.symm h.1]

theorem allDV_dictSet (l : List (String × PyVal)) (k : String) (d : Dataview)
    (h : allDV l = true) : allDV (dictSet l k (.dataview d)) = true := by
  induction l with
  | nil => rfl
  | cons p rest ih =>
    simp only [allDV, List.all_cons, Bool.and_eq_true] at h
    simp only [dictSet]
    split
    · simp only [allDV, List.all_cons, Bool.and_eq_true]
      exact ⟨rfl, h.2⟩
    · simp only [allDV, List.all_cons, Bool.and_eq_true]
      exact ⟨h.1, ih h.2⟩

theorem allDV_dictUpdate (l vs : List (String × PyVal))
    (hl : allDV l = true) (hvs : allDV vs = true) :
    allDV (dictUpdate l vs) = true := by
  induction vs generalizing l with
  | nil => simpa [dictUpdate] using hl
  | cons p rest ih =>
    simp only [allDV, List.all_cons, Bool.and_eq_true] at hvs
    obtain ⟨d, hd⟩ := (isDV_iff _).mp hvs.1
    have h2 : allDV (dictSet l p.1 p.2) = true := by
      rw [hd]; exact allDV_dictSet l p.1 d hl
    simpa [dictUpdate] using ih (dictSet l p.1 p.2) h2 hvs.2

theorem allDV_loadViews (nodes : List (String × HNode)) :
    ∀ acc, allDV acc = true → allDV (loadViews nodes acc) = true := by
  induction nodes with
  | nil => intro acc h; simpa [loadViews] using h
  | cons p rest ih =>
    intro acc h
    cases hn : Dataview.from_hdf p.2 with
    | ok d => simpa [loadViews, hn] using ih _ (allDV_dictSet acc p.1 d h)
    | error e => simpa [loadViews, hn] using ih _ h

theorem allDV_foreignScan (others : List (String × HNode)) :
    ∀ acc out, allDV acc = true → foreignScan others acc = .ok out →
      allDV out = true := by
  induction others with
  | nil =>
    intro acc out h hs
    simp only [foreignScan] at hs
    cases hs; exact h
  | cons p rest ih =>
    intro acc out h hs
    simp only [foreignScan] at hs
    split at hs
    · exact ih acc out h hs
    · rw [show moduleGlobals.contains "_from_hdf_data" = false from rfl] at hs
      simp at hs

theorem allDV_from_file (h5 : H5) (vs : List (String × PyVal))
    (h : (Dataset.from_file h5).1 = .ok vs) : allDV vs = true := by
  unfold Dataset.from_file at h
  cases hscan : foreignScan h5.others [] with
  | error e => rw [hscan] at h; cases h
  | ok fv =>
    rw [hscan] at h
    cases hg : h5.viewsGroup with
    | none => rw [hg] at h; cases h
    | some nodes =>
      rw [hg] at h
      cases h
      exact allDV_loadViews nodes fv (allDV_foreignScan h5.others [] fv rfl hscan)

/-- Joint invariant: on a well-formed value a successful `normalize` produces
either a Dataview or a Dataset whose entries are all Dataviews, and
`appendPairs` on well-formed values preserves the all-Dataview property of
`views`. -/
theorem normalize_appendPairs_allDV (fs : FileSys) :
    (∀ v : PyVal, ∀ out, v.wf = true → normalize fs v = .ok out →
      (∃ d, out = PyVal.dataview d) ∨
      (∃ vs, out = PyVal.dataset vs ∧ allDV vs = true)) ∧
    (∀ views kwargs out, allDV views = true → wfList kwargs = true →
      Dataset.appendPairs fs views kwargs = .ok out → allDV out = true) := by
  have main :=
    normalize.mutual_induct fs
      (fun v => ∀ out, v.wf = true → normalize fs v = .ok out →
        (∃ d, out = PyVal.dataview d) ∨
        (∃ vs, out = PyVal.dataset vs ∧ allDV vs = true))
      (fun views kwargs => ∀ out, allDV views = true → wfList kwargs = true →
        Dataset.appendPairs fs views kwargs = .ok out → allDV out = true)
      ?_ ?_ ?_ ?_ ?_ ?_ ?_ ?_ ?_ ?_ ?_
  · exact ⟨fun v => main.1 v, fun views kwargs => main.2 views kwargs⟩
  · -- dataset vs
    intro vs out hwf hout
    simp only [normalize] at hout
    cases hout
    exact Or.inr ⟨vs, rfl, by simpa [PyVal.wf] using hwf⟩
  · -- dataview d
    intro d out _ hout
    simp only [normalize] at hout
    cases hout
    exact Or.inl ⟨d, rfl⟩
  · -- dict items
    intro items ih out hwf hout
    simp only [normalize, Except.map] at hout
    cases happ : Dataset.appendPairs fs [] items with
    | error e => rw [happ] at hout; cases hout
    | ok views2 =>
      rw [happ] at hout
      cases hout
      exact Or.inr ⟨views2, rfl, ih views2 rfl (by simpa [PyVal.wf] using hwf) happ⟩
  · -- pystr s
    intro s out _ hout
    simp only [normalize, Except.map] at hout
    cases hld : (Dataset.from_file ((dictFind fs s).getD H5.empty)).1 with
    | error e => rw [hld] at hout; cases hout
    | ok vs =>
      rw [hld] at hout
      cases hout
      exact Or.inr ⟨vs, rfl, allDV_from_file _ vs hld⟩
  · -- tup t
    intro t out _ hout
    simp only [normalize, _vnorm] at hout
    cases hout
    exact Or.inl ⟨t, rfl⟩
  · -- other
    intro ty out _ hout
    simp only [normalize] at hout
    cases hout
  · -- appendPairs nil
    intro views out hv _ happ
    simp only [Dataset.appendPairs] at happ
    cases happ
    exact hv
  · -- appendPairs cons, normalize errors
    intro views name data rest e hnorm _ out _ hwf happ
    simp only [Dataset.appendPairs, hnorm] at happ
    cases happ
  · -- appendPairs cons, Dataview
    intro views name data rest d hnorm _ ih out hv hwf happ
    simp only [Dataset.appendPairs, hnorm] at happ
    simp only [wfList, Bool.and_eq_true] at hwf
    exact ih out (allDV_dictSet views name d hv) hwf.2 happ
  · -- appendPairs cons, Dataset
    intro views name data rest vs hnorm ihn ih out hv hwf happ
    simp only [Dataset.appendPairs, hnorm] at happ
    simp only [wfList, Bool.and_eq_true] at hwf
    have hvs : allDV vs = true := by
      rcases ihn (PyVal.dataset vs) hwf.1 hnorm with ⟨d, hd⟩ | ⟨vs2, hvs2, hall⟩
      · cases hd
      · cases hvs2; exact hall
    exact ih out (allDV_dictUpdate views vs hv hvs) hwf.2 happ
  · -- appendPairs cons, other normalized value
    intro views name data rest a ha1 ha2 hnorm _ out _ _ happ
    simp only [Dataset.appendPairs, hnorm] at happ
    cases a with
    | dataview d => exact absurd rfl (ha1 d)
    | dataset vs => exact absurd rfl (ha2 vs)
    | dict items => cases happ
    | pystr s => cases happ
    | tup t => cases happ
    | other ty => cases happ

theorem writeViews_isOk (views : List (String × PyVal)) :
    ∀ h5, allDV views = true → ∃ h5b, writeViews h5 views = .ok h5b := by
  induction views with
  | nil => intro h5 _; exact ⟨h5, rfl⟩
  | cons p rest ih =>
    intro h5 h
    simp only [allDV, List.all_cons, Bool.and_eq_true] at h
    obtain ⟨d, hd⟩ := (isDV_iff _).mp h.1
    obtain ⟨h5b, hb⟩ := ih _ h.2
    refine ⟨h5b, ?_⟩
    rw [show p = (p.1, p.2) from rfl, hd]
    simpa [writeViews] using hb

theorem writeViews_group (views : List (String × PyVal)) :
    ∀ (h5 : H5) (g : List (String × HNode)), h5.viewsGroup = some g →
    allDV views = true →
    (∀ n ∈ views.map Prod.fst, n ∉ g.map Prod.fst) →
    (views.map Prod.fst).Nodup →
    writeViews h5 views =
      .ok { h5 with viewsGroup := some (g ++ views.map (fun p => (p.1, nodeOf p.2))) } := by
  induction views with
  | nil =>
    intro h5 g hg _ _ _
    simp only [writeViews, List.map_nil, List.append_nil]
    rw [← hg]
  | cons p rest ih =>
    intro h5 g hg hdv hdisj hnd
    simp only [allDV, List.all_cons, Bool.and_eq_true] at hdv
    obtain ⟨d, hd⟩ := (isDV_iff _).mp hdv.1
    simp only [List.map_cons, List.mem_cons, List.nodup_cons] at hdisj hnd
    have hp1 : p.1 ∉ g.map Prod.fst := hdisj p.1 (Or.inl rfl)
    have hset : dictSet (h5.viewsGroup.getD []) p.1 (Dataview.writeNode d) =
        g ++ [(p.1, Dataview.writeNode d)] := by
      rw [hg]
      exact dictSet_key_absent g p.1 _ hp1
    have hih := ih { h5 with viewsGroup := some (g ++ [(p.1, Dataview.writeNode d)]) }
      (g ++ [(p.1, Dataview.writeNode d)]) rfl hdv.2
      (by
        intro n hn hmem
        rw [List.map_append, List.mem_append] at hmem
        rcases hmem with h1 | h2
        · exact hdisj n (Or.inr hn) h1
        · simp only [List.map_cons, List.map_nil, List.mem_singleton] at h2
          exact hnd.1 (h2 ▸ hn))
      hnd.2
    rw [show p = (p.1, p.2) from rfl, hd]
    simp only [writeViews, hset]
    rw [hih]
    simp [nodeOf, hd, Dataview.writeNode, List.append_assoc]

theorem loadViews_dv (views : List (String × PyVal)) :
    ∀ acc, allDV views = true →
    (∀ n ∈ views.map Prod.fst, n ∉ acc.map Prod.fst) →
    (views.map Prod.fst).Nodup →
    loadViews (views.map (fun p => (p.1, nodeOf p.2))) acc = acc ++ views := by
  induction views with
  | nil => intro acc _ _ _; simp [loadViews]
  | cons p rest ih =>
    intro acc hdv hdisj hnd
    simp only [allDV, List.all_cons, Bool.and_eq_true] at hdv
    obtain ⟨d, hd⟩ := (isDV_iff _).mp hdv.1
    simp only [List.map_cons, List.mem_cons, List.nodup_cons] at hdisj hnd
    have hset : dictSet acc p.1 (PyVal.dataview d) = acc ++ [(p.1, PyVal.dataview d)] :=
      dictSet_key_absent acc p.1 _ (hdisj p.1 (Or.inl rfl))
    have hih := ih (acc ++ [(p.1, PyVal.dataview d)]) hdv.2
      (by
        intro n hn hmem
        rw [List.map_append, List.mem_append] at hmem
        rcases hmem with h1 | h2
        · exact hdisj n (Or.inr hn) h1
        · simp only [List.map_cons, List.map_nil, List.mem_singleton] at h2
          exact hnd.1 (h2 ▸ hn))
      hnd.2
    have hnode : nodeOf p.2 = HNode.dv d := by rw [hd]; rfl
    simp only [List.map_cons]
    rw [hnode]
    simp only [loadViews, Dataview.from_hdf, hset]
    rw [hih, show p = (p.1, PyVal.dataview d) from by rw [← hd]]
    simp [List.append_assoc]

theorem collectData_nameError (acc : PackSets) (data : BrainData) :
    collectData acc data = .error (.nameError "Volume") := rfl

theorem collectDatas_nameError (acc : PackSets) (ds : List BrainData)
    (h : ds ≠ []) : collectDatas acc ds = .error (.nameError "Volume") := by
  cases ds with
  | nil => exact absurd rfl h
  | cons d rest => simp [collectDatas, collectData_nameError]

theorem packCollect_nameError (views : List (String × PyVal)) :
    ∀ acc, allDV views = true → (∃ p ∈ views, PyVal.uniques p.2 ≠ []) →
    packCollect acc views = .error (.nameError "Volume") := by
  induction views with
  | nil => intro acc _ hex; simp at hex
  | cons p rest ih =>
    intro acc hdv hex
    simp only [allDV, List.all_cons, Bool.and_eq_true] at hdv
    obtain ⟨d, hd⟩ := (isDV_iff _).mp hdv.1
    rw [show p = (p.1, p.2) from rfl, hd]
    by_cases hu : d.uniq = []
    · have hrest : ∃ q ∈ rest, PyVal.uniques q.2 ≠ [] := by
        rcases hex with ⟨q, hq, hqu⟩
        rcases List.mem_cons.mp hq with rfl | hq2
        · rw [hd] at hqu
          exact absurd hu (by simpa [PyVal.uniques] using hqu)
        · exact ⟨q, hq2, hqu⟩
      simp only [packCollect, hu, collectDatas]
      exact ih acc hdv.2 hrest
    · simp [packCollect, collectDatas_nameError acc d.uniq hu]

theorem insertByPriority_perm (x : String × PyVal) (l : List (String × PyVal)) :
    (insertByPriority x l).Perm (x :: l) := by
  induction l with
  | nil => exact List.Perm.refl _
  | cons y ys ih =>
    simp only [insertByPriority]
    split
    · exact ((ih.cons y).trans (List.Perm.swap x y ys))
    · exact List.Perm.refl _

theorem iter_perm_aux (l : List (String × PyVal)) :
    ∀ acc, (List.foldl (fun acc x => insertByPriority x acc) acc l).Perm (acc ++ l) := by
  induction l with
  | nil => intro acc; simp
  | cons x xs ih =>
    intro acc
    have step : (insertByPriority x acc ++ xs).Perm (acc ++ x :: xs) :=
      ((insertByPriority_perm x acc).append_right xs).trans List.perm_middle.symm
    exact (ih (insertByPriority x acc)).trans step

theorem iter_perm (l : List (String × PyVal)) : (Dataset.iter l).Perm l :=
  iter_perm_aux l []

theorem insertByPriority_sorted (x : String × PyVal) (l : List (String × PyVal))
    (h : l.Pairwise (fun p q => viewPriority p.2 ≤ viewPriority q.2)) :
    (insertByPriority x l).Pairwise (fun p q => viewPriority p.2 ≤ viewPriority q.2) := by
  induction l with
  | nil => simp [insertByPriority]
  | cons y ys ih =>
    rw [List.pairwise_cons] at h
    by_cases hle : viewPriority y.2 ≤ viewPriority x.2
    · rw [insertByPriority, if_pos hle, List.pairwise_cons]
      refine ⟨fun z hz => ?_, ih h.2⟩
      rcases List.mem_cons.mp ((insertByPriority_perm x ys).mem_iff.mp hz) with rfl | hz3
      · exact hle
      · exact h.1 z hz3
    · rw [insertByPriority, if_neg hle, List.pairwise_cons]
      refine ⟨fun z hz => ?_, List.pairwise_cons.mpr h⟩
      rcases List.mem_cons.mp hz with rfl | hz3
      · omega
      · have hy := h.1 z hz3
        omega

theorem iter_sorted_aux (l : List (String × PyVal)) :
    ∀ acc, acc.Pairwise (fun p q => viewPriority p.2 ≤ viewPriority q.2) →
    (List.foldl (fun acc x => insertByPriority x acc) acc l).Pairwise
      (fun p q => viewPriority p.2 ≤ viewPriority q.2) := by
  induction l with
  | nil => intro acc h; simpa using h
  | cons x xs ih => intro acc h; exact ih _ (insertByPriority_sorted x acc h)

theorem iter_sorted (l : List (String × PyVal)) :
    (Dataset.iter l).Pairwise (fun p q => viewPriority p.2 ≤ viewPriority q.2) :=
  iter_sorted_aux l [] (List.Pairwise.nil)

theorem appendPairs_all_dataview (fs : FileSys) (kwargs : List (String × PyVal)) :
    ∀ acc, (∀ p ∈ kwargs, ∃ d, normalize fs p.2 = .ok (.dataview d)) →
    (acc.map Prod.fst ++ kwargs.map Prod.fst).Nodup →
    ∃ out, Dataset.appendPairs fs acc kwargs = .ok out ∧
      out.map Prod.fst = acc.map Prod.fst ++ kwargs.map Prod.fst ∧
      (allDV acc = true → allDV out = true) := by
  induction kwargs with
  | nil =>
    intro acc _ _
    exact ⟨acc, rfl, by simp, fun h => h⟩
  | cons p rest ih =>
    intro acc h hnd
    obtain ⟨d, hnorm⟩ := h p (List.mem_cons_self p rest)
    have hp1 : p.1 ∉ acc.map Prod.fst := by
      intro hmem
      rw [List.nodup_append] at hnd
      exact hnd.2.2 hmem (by simp)
    have hset : dictSet acc p.1 (PyVal.dataview d) = acc ++ [(p.1, PyVal.dataview d)] :=
      dictSet_key_absent acc p.1 _ hp1
    have hnd2 : ((acc ++ [(p.1, PyVal.dataview d)]).map Prod.fst ++
        rest.map Prod.fst).Nodup := by
      simp only [List.map_append, List.map_cons, List.map_nil, List.append_assoc,
        List.singleton_append]
      simpa using hnd
    obtain ⟨out, hout, hkeys, hdvp⟩ := ih (acc ++ [(p.1, PyVal.dataview d)])
      (fun q hq => h q (List.mem_cons_of_mem p hq)) hnd2
    refine ⟨out, ?_, ?_, ?_⟩
    · rw [show p = (p.1, p.2) from rfl]
      simpa [Dataset.appendPairs, hnorm, hset] using hout
    · rw [hkeys]
      simp [List.append_assoc]
    · intro hacc
      refine hdvp ((allDV_iff _).mpr ?_)
      intro q hq
      rcases List.mem_append.mp hq with h1 | h2
      · exact (allDV_iff _).mp hacc q h1
      · exact ⟨d, by rw [List.mem_singleton.mp h2]⟩

theorem map_single_ok (x : Except PyErr SurfaceN) (s : SurfaceN)
    (h : x.map GSRes.single = .ok (.single s)) : x = .ok s := by
  cases x with
  | ok a =>
    simp only [Except.map] at h
    cases h
    rfl
  | error e => simp [Except.map] at h

theorem from_file_of_written (views : List (String × PyVal))
    (hdv : allDV views = true) (hnd : (views.map Prod.fst).Nodup) :
    (Dataset.from_file ⟨some (views.map (fun p => (p.1, nodeOf p.2))), none, []⟩).1 =
      .ok views := by
  simp only [Dataset.from_file, foreignScan]
  rw [loadViews_dv views [] hdv (by simp) hnd]
  simp

/-! ### Claims -/

/-- Claim C1, counterexample to the unrestricted statement: for the empty
Dataset, `save` writes nothing (no `views` group is ever created), so the
subsequent `Dataset.from_file` raises `KeyError('views')` instead of yielding
a Dataset. -/
theorem C1_counterexample_empty_dataset :
    Dataset.save DBModel.trivial [] none (some H5.empty) false = .ok H5.empty ∧
    (Dataset.from_file H5.empty).1 = .error (.keyError "views") :=
  ⟨rfl, rfl⟩

/-- Claim C1 (amended): for every Dataset with at least one view (its `views`
dict having Dataview entries under distinct names, as the module guarantees),
saving to a fresh file and loading that file back with `Dataset.from_file`
yields exactly the original name-to-view mapping. -/
theorem C1_save_load_roundtrip (dbm : DBModel) (views : List (String × PyVal))
    (h5out : H5) (hne : views ≠ []) (hdv : allDV views = true)
    (hnd : (views.map Prod.fst).Nodup)
    (hsave : Dataset.save dbm views none (some H5.empty) false = .ok h5out) :
    (Dataset.from_file h5out).1 = .ok views := by
  have hw : writeViews H5.empty views =
      .ok ⟨some (views.map (fun p => (p.1, nodeOf p.2))), none, []⟩ := by
    cases views with
    | nil => exact absurd rfl hne
    | cons p rest =>
      simp only [allDV, List.all_cons, Bool.and_eq_true] at hdv
      obtain ⟨d, hd⟩ := (isDV_iff _).mp hdv.1
      simp only [List.map_cons, List.nodup_cons] at hnd
      have hstep : writeViews H5.empty (p :: rest) =
          writeViews ⟨some [(p.1, HNode.dv d)], none, []⟩ rest := by
        rw [show p = (p.1, p.2) from rfl, hd]
        rfl
      rw [hstep, writeViews_group rest ⟨some [(p.1, HNode.dv d)], none, []⟩
        [(p.1, HNode.dv d)] rfl hdv.2
        (by
          intro n hn hmem
          simp only [List.map_cons, List.map_nil, List.mem_singleton] at hmem
          exact hnd.1 (hmem ▸ hn))
        hnd.2]
      have hnode : nodeOf p.2 = HNode.dv d := by rw [hd]; rfl
      simp [List.map_cons, hnode]
  have hsave2 : Dataset.save dbm views none (some H5.empty) false =
      .ok ⟨some (views.map (fun p => (p.1, nodeOf p.2))), none, []⟩ := by
    simp [Dataset.save, hw]
  rw [hsave2] at hsave
  cases hsave
  exact from_file_of_written views hdv hnd

/-- Claim C1, witness for the amended round trip at a one-view dataset. -/
theorem C1_witness :
    (Dataset.from_file ⟨some [("v", HNode.dv dv0)], none, []⟩).1 =
      .ok [("v", PyVal.dataview dv0)] :=
  C1_save_load_roundtrip DBModel.trivial [("v", PyVal.dataview dv0)] _
    (List.cons_ne_nil _ _) rfl (by simp) rfl

/-- Claim C2: the claimed dedup-and-pack behaviour never runs — on a dataset
with five views all referencing subject `S1`, transform `T1`, string mask
`M1`, `save(pack=True)` aborts with `NameError` on the unbound module-level
name `Volume` before any `_pack_*` call, instead of packing each resource
once. -/
theorem C2_pack_name_error :
    Dataset.save DBModel.trivial viewsS1 none (some H5.empty) true =
      .error (.nameError "Volume") := rfl

/-- Claim C3: a value normalizing to a Dataview is stored under the given
name (overwriting any existing entry of that name, per `dictSet`); a value
normalizing to a Dataset has all its views merged in and the given name
discarded; and after any successful append on API-constructible values every
entry of `views` is a Dataview. -/
theorem C3_append_semantics (fs : FileSys) :
    (∀ views name v d, normalize fs v = .ok (.dataview d) →
      Dataset.appendPairs fs views [(name, v)] =
        .ok (dictSet views name (.dataview d))) ∧
    (∀ views name v vs, normalize fs v = .ok (.dataset vs) →
      Dataset.appendPairs fs views [(name, v)] = .ok (dictUpdate views vs)) ∧
    (∀ views kwargs out, allDV views = true → wfList kwargs = true →
      Dataset.appendPairs fs views kwargs = .ok out → allDV out = true) := by
  refine ⟨?_, ?_, (normalize_appendPairs_allDV fs).2⟩
  · intro views name v d h
    simp [Dataset.appendPairs, h]
  · intro views name v vs h
    simp [Dataset.appendPairs, h]

/-- Claim C3, witness: a Dataview overwrites the existing entry `x`; a
one-entry Dataset appended under the name `n` lands under its own name `a`;
the result entries are all Dataviews. -/
theorem C3_witness :
    Dataset.appendPairs [] [("x", PyVal.dataview ⟨7, []⟩)] [("x", PyVal.dataview dv0)] =
      .ok (dictSet [("x", PyVal.dataview ⟨7, []⟩)] "x" (PyVal.dataview dv0)) ∧
    Dataset.appendPairs [] [] [("n", PyVal.dataset [("a", PyVal.dataview dv0)])] =
      .ok (dictUpdate [] [("a", PyVal.dataview dv0)]) ∧
    allDV [("a", PyVal.dataview dv0)] = true :=
  ⟨(C3_append_semantics []).1 _ "x" _ dv0 rfl,
   (C3_append_semantics []).2.1 _ "n" _ _ rfl,
   (C3_append_semantics []).2.2 [] [("n", PyVal.dataset [("a", PyVal.dataview dv0)])]
     _ rfl rfl rfl⟩

/-- Claim C4: loading a file with a foreign top-level node does raise — the
scan evaluates the unbound module-level name `_from_hdf_data`, whose
`NameError` is not caught by the `except KeyError` handler that implements
the documented skip-with-warning, so `from_file` aborts (and leaves
`db.auxfile` set). -/
theorem C4_foreign_node_name_error :
    Dataset.from_file strayFile = (.error (.nameError "_from_hdf_data"), some ()) :=
  rfl

/-- Claim C5, counterexample: `normalize(42)` raises
`TypeError('Unknown input type')` — a constant message that names neither the
offending value nor its type (`int`). -/
theorem C5_counterexample :
    normalize [] (.other "int") = .error (.typeError "Unknown input type") ∧
    ¬ List.IsInfix "int".toList "Unknown input type".toList ∧
    ¬ List.IsInfix "42".toList "Unknown input type".toList :=
  ⟨rfl, by decide, by decide⟩

/-- Claim C5 (amended): on every unsupported input, `normalize` fails with a
`TypeError` whose message is the constant string `Unknown input type`,
independent of the offending value. -/
theorem C5_unknown_input_type (fs : FileSys) (tyName : String) :
    normalize fs (.other tyName) = .error (.typeError "Unknown input type") :=
  rfl

/-- Claim C6, counterexample to the unrestricted statement: a (valid) Dataset
value passed under the keyword `x` is flattened, so iteration yields the
nested name `a`, not the passed name `x`. -/
theorem C6_counterexample :
    Dataset.init [] [("x", PyVal.dataset [("a", PyVal.dataview dv0)])] =
      .ok [("a", PyVal.dataview dv0)] ∧
    (Dataset.iter [("a", PyVal.dataview dv0)]).map Prod.fst = ["a"] ∧
    "x" ∉ (Dataset.iter [("a", PyVal.dataview dv0)]).map Prod.fst :=
  ⟨rfl, rfl, by decide⟩

/-- Claim C6 (amended): for keyword inputs each of whose values normalizes to
a Dataview (under distinct names), `Dataset(**kwargs)` stores exactly the
passed names, every entry is a Dataview, and iteration yields a permutation
of the passed names in ascending view-priority order. -/
theorem C6_init_iter (fs : FileSys) (kwargs out : List (String × PyVal))
    (h1 : ∀ p ∈ kwargs, ∃ d, normalize fs p.2 = .ok (.dataview d))
    (h2 : (kwargs.map Prod.fst).Nodup)
    (h3 : Dataset.init fs kwargs = .ok out) :
    out.map Prod.fst = kwargs.map Prod.fst ∧
    allDV out = true ∧
    ((Dataset.iter out).map Prod.fst).Perm (kwargs.map Prod.fst) ∧
    allDV (Dataset.iter out) = true ∧
    (Dataset.iter out).Pairwise (fun p q => viewPriority p.2 ≤ viewPriority q.2) := by
  obtain ⟨out2, hout2, hkeys, hdvp⟩ :=
    appendPairs_all_dataview fs kwargs [] h1 (by simpa using h2)
  rw [Dataset.init, hout2] at h3
  injection h3 with heq
  have hkeys2 : out.map Prod.fst = kwargs.map Prod.fst := by
    rw [← heq]
    simpa using hkeys
  have hdv : allDV out = true := by
    rw [← heq]
    exact hdvp rfl
  refine ⟨hkeys2, hdv, ?_, ?_, iter_sorted out⟩
  · exact (hkeys2 ▸ ((iter_perm out).map Prod.fst))
  · refine (allDV_iff _).mpr ?_
    intro q hq
    exact (allDV_iff _).mp hdv q ((iter_perm out).mem_iff.mp hq)

/-- Claim C6, witness at two Dataview-valued keywords with priorities 2 and 1. -/
theorem C6_witness :
    [("b", PyVal.dataview ⟨2, []⟩), ("a", PyVal.dataview ⟨1, []⟩)].map Prod.fst =
      [("b", PyVal.dataview ⟨2, []⟩), ("a", PyVal.dataview ⟨1, []⟩)].map Prod.fst ∧
    allDV [("b", PyVal.dataview ⟨2, []⟩), ("a", PyVal.dataview ⟨1, []⟩)] = true ∧
    ((Dataset.iter [("b", PyVal.dataview ⟨2, []⟩), ("a", PyVal.dataview ⟨1, []⟩)]).map
      Prod.fst).Perm
      ([("b", PyVal.dataview ⟨2, []⟩), ("a", PyVal.dataview ⟨1, []⟩)].map Prod.fst) ∧
    allDV (Dataset.iter [("b", PyVal.dataview ⟨2, []⟩), ("a", PyVal.dataview ⟨1, []⟩)]) =
      true ∧
    (Dataset.iter [("b", PyVal.dataview ⟨2, []⟩), ("a", PyVal.dataview ⟨1, []⟩)]).Pairwise
      (fun p q => viewPriority p.2 ≤ viewPriority q.2) :=
  C6_init_iter [] _ _
    (by
      intro p hp
      rcases List.mem_cons.mp hp with rfl | hp2
      · exact ⟨⟨2, []⟩, rfl⟩
      · rcases List.mem_cons.mp hp2 with rfl | hp3
        · exact ⟨⟨1, []⟩, rfl⟩
        · cases hp3)
    (by decide) rfl

/-- Claim C7: whenever `wm` and `pia` surfaces are present for a subject and
single hemisphere (with matching vertex counts), `get_surf` for the derived
`fiducial` type returns the elementwise average of the `wm` and `pia` points
together with the `wm` polygon array. -/
theorem C7_fiducial (h5o : Option H5) (subject hemi : String) (w p : SurfaceN)
    (hh : hemi ≠ "both")
    (hw : Dataset.get_surf h5o subject "wm" hemi false false = .ok (.single w))
    (hp : Dataset.get_surf h5o subject "pia" hemi false false = .ok (.single p))
    (hlen : w.pts.length = p.pts.length) :
    Dataset.get_surf h5o subject "fiducial" hemi false false =
      .ok (.single ⟨List.zipWith midPt w.pts p.pts, w.polys⟩) := by
  have hwb : get_surf_base h5o subject "wm" hemi false = .ok w := by
    have h2 := map_single_ok _ _ (by rwa [Dataset.get_surf, if_neg hh] at hw)
    rwa [get_surf_hemi, if_neg (by decide : ¬("wm" = "fiducial"))] at h2
  have hpb : get_surf_base h5o subject "pia" hemi false = .ok p := by
    have h2 := map_single_ok _ _ (by rwa [Dataset.get_surf, if_neg hh] at hp)
    rwa [get_surf_hemi, if_neg (by decide : ¬("pia" = "fiducial"))] at h2
  rw [Dataset.get_surf, if_neg hh, get_surf_hemi, if_pos rfl, hwb, hpb]
  simp [hlen, Except.map]

/-- Claim C7, witness on a concrete packaged subject. -/
theorem C7_witness :
    Dataset.get_surf (some h5X) "S" "fiducial" "lh" false false =
      .ok (.single ⟨List.zipWith midPt surfW.pts surfP.pts, surfW.polys⟩) :=
  C7_fiducial (some h5X) "S" "lh" surfW surfP (by decide) rfl rfl rfl

/-- Claim C8: for a surface type present on both hemispheres,
`get_surf(subject, type, 'both', merge=True)` vstacks the point arrays (row
count = left + right) and offsets every right-hemisphere polygon index by the
number of left-hemisphere points. -/
theorem C8_both_merge (h5o : Option H5) (subject ty : String) (nudge : Bool)
    (l r : SurfaceN)
    (hl : Dataset.get_surf h5o subject ty "lh" false nudge = .ok (.single l))
    (hr : Dataset.get_surf h5o subject ty "rh" false nudge = .ok (.single r)) :
    Dataset.get_surf h5o subject ty "both" true nudge =
      .ok (.single ⟨l.pts ++ r.pts,
                    l.polys ++ r.polys.map (offsetPoly l.pts.length)⟩) ∧
    (l.pts ++ r.pts).length = l.pts.length + r.pts.length := by
  have hl2 : get_surf_hemi h5o subject ty "lh" nudge = .ok l :=
    map_single_ok _ _ (by rwa [Dataset.get_surf, if_neg (by decide)] at hl)
  have hr2 : get_surf_hemi h5o subject ty "rh" nudge = .ok r :=
    map_single_ok _ _ (by rwa [Dataset.get_surf, if_neg (by decide)] at hr)
  constructor
  · rw [Dataset.get_surf, if_pos rfl, hl2, hr2]
    simp
  · simp

/-- Claim C8, witness on a concrete packaged subject. -/
theorem C8_witness :
    Dataset.get_surf (some h5X) "S" "wm" "both" true false =
      .ok (.single ⟨surfW.pts ++ surfR.pts,
                    surfW.polys ++ surfR.polys.map (offsetPoly surfW.pts.length)⟩) ∧
    (surfW.pts ++ surfR.pts).length = surfW.pts.length + surfR.pts.length :=
  C8_both_merge (some h5X) "S" "wm" false surfW surfR rfl rfl

/-- Claim C9, counterexample: on a file with no `views` group, `from_file`
raises `KeyError('views')` and exits with `db.auxfile` still set — there is
no `try/finally`, so teardown is not guaranteed on every exit path. -/
theorem C9_counterexample :
    (Dataset.from_file noViewsFile).1 = .error (.keyError "views") ∧
    (Dataset.from_file noViewsFile).2 = some () :=
  ⟨rfl, rfl⟩

/-- Claim C9 (amended): `db.auxfile` is set on entry and cleared back to none
whenever `from_file` completes normally (per-node failures are caught
internally, so they still reach the teardown); only an exception escaping
`from_file` leaves the binding set. -/
theorem C9_auxfile_cleared_on_success (h5 : H5) (vs : List (String × PyVal))
    (h : (Dataset.from_file h5).1 = .ok vs) :
    (Dataset.from_file h5).2 = none := by
  cases hscan : foreignScan h5.others [] with
  | error e =>
    simp only [Dataset.from_file, hscan] at h
    cases h
  | ok fv =>
    cases hg : h5.viewsGroup with
    | none =>
      simp only [Dataset.from_file, hscan, hg] at h
      cases h
    | some nodes => simp only [Dataset.from_file, hscan, hg]

/-- Claim C9, witness: a successful load clears the binding. -/
theorem C9_witness : (Dataset.from_file ⟨some [], none, []⟩).2 = none :=
  C9_auxfile_cleared_on_success ⟨some [], none, []⟩ [] rfl

/-- Claim C10: on any dataset with at least one view whose `uniques()` is
non-empty, the pack branch of `save` evaluates `isinstance(data, Volume)`,
but `Volume` is bound nowhere in the module, so `save(..., pack=True)` raises
`NameError` instead of completing. -/
theorem C10_pack_volume_name_error (dbm : DBModel) (views : List (String × PyVal))
    (selfh5 : Option H5) (h5file : H5) (hdv : allDV views = true)
    (hex : ∃ p ∈ views, PyVal.uniques p.2 ≠ []) :
    Dataset.save dbm views selfh5 (some h5file) true =
      .error (.nameError "Volume") := by
  obtain ⟨h5b, hw⟩ := writeViews_isOk views h5file hdv
  simp [Dataset.save, hw, packCollect_nameError views ⟨[], [], []⟩ hdv hex]

/-- Claim C10, witness at a one-view dataset with one raw-data object. -/
theorem C10_witness :
    Dataset.save DBModel.trivial [("v", PyVal.dataview ⟨1, [bdS1]⟩)] none
      (some H5.empty) true = .error (.nameError "Volume") :=
  C10_pack_volume_name_error DBModel.trivial _ none H5.empty rfl
    ⟨("v", PyVal.dataview ⟨1, [bdS1]⟩), List.mem_singleton.mpr rfl,
     List.cons_ne_nil _ _⟩

end Cortex
